import Mathlib

/-!
# joebjoe/me: the redirect handler and the environment loader

A shallow embedding of `cmd/main.go` (the `handler` with its `GET` and `PUT`
methods and the `withBasicAuth` middleware) and of `internal/env/env.go`
(`parseTagData`, `tag.get`, `load`, `Load`), followed by the properties
established about them.

Conventions of the embedding:

* a Go `string` is its sequence of bytes, `List Nat` (every byte below 256);
* the process environment is an association list read by `os.LookupEnv` and
  written by `os.Setenv`, threaded explicitly through the operations;
* a method with a pointer receiver takes the receiver's state and returns the
  new one;
* a Go `error` result is an `Except`; wrapped errors (`%w`) are constructors
  that hold the wrapped error.
-/

set_option autoImplicit false

namespace Me

/-- Equality of two `Except` values is decidable when it is on both sides. -/
instance instDecidableEqExcept {ε α : Type} [DecidableEq ε] [DecidableEq α] :
    DecidableEq (Except ε α)
  | .ok a, .ok b => if h : a = b then isTrue (by rw [h]) else isFalse (fun e => h (by cases e; rfl))
  | .error a, .error b =>
    if h : a = b then isTrue (by rw [h]) else isFalse (fun e => h (by cases e; rfl))
  | .ok _, .error _ => isFalse (fun e => by cases e)
  | .error _, .ok _ => isFalse (fun e => by cases e)

/-! ## Strings -/

/-- A Go `string`: an immutable sequence of bytes. -/
abbrev GoString := List Nat

/-- The bytes of a string literal of the source (all of them are ASCII, where
the code point of a character is its single byte). -/
def lit (s : String) : GoString := s.toList.map Char.toNat

/-- The call `strings.Split(s, sep)` for a separator of one byte: the pieces of
`s` between the occurrences of `sep` (always at least one piece). -/
def strings.Split : GoString → Nat → List GoString
  | [], _ => [[]]
  | b :: rest, sep =>
    if b = sep then [] :: strings.Split rest sep
    else
      match strings.Split rest sep with
      | [] => [[b]]
      | w :: ws => (b :: w) :: ws

/-- The call `strings.HasPrefix(s, pre)`. -/
def strings.HasPrefix (s pre : GoString) : Bool := pre.isPrefixOf s

/-- The call `strings.TrimPrefix(s, pre)`: `s` without the leading `pre`, or `s`
itself when it does not start with `pre`. -/
def strings.TrimPrefix (s pre : GoString) : GoString :=
  if strings.HasPrefix s pre then s.drop pre.length else s

/-! ## The process environment -/

/-- The environment table of the process: the first entry of a key is its
value. -/
abbrev Env := List (GoString × GoString)

/-- The call `os.LookupEnv(key)`: `some v` for `(v, true)`, `none` for
`("", false)`. -/
def os.LookupEnv : Env → GoString → Option GoString
  | [], _ => none
  | (k, v) :: rest, key => if k = key then some v else os.LookupEnv rest key

/-- The error of a failed system call. -/
inductive Errno
  | EINVAL
  deriving DecidableEq, Repr

/-- The call `os.Setenv(key, value)`: `EINVAL` for an empty key, a key holding
`=` or NUL, or a value holding NUL; the table is left as it was then. Otherwise
`key` is bound to `value`. -/
def os.Setenv (env : Env) (key value : GoString) : Except Errno Env :=
  if key = [] ∨ 61 ∈ key ∨ 0 ∈ key ∨ 0 ∈ value then .error .EINVAL
  else .ok ((key, value) :: env.filter (fun kv => kv.1 ≠ key))

/-- The text of the error `os.Setenv` returns: `setenv: invalid argument`. -/
def Errno.Error : Errno → GoString
  | .EINVAL => lit "setenv: invalid argument"

/-! ## HTTP values (the parts of echo the handlers touch) -/

/-- The error `echo.NewHTTPError(code, message...)`; `Message = none` stands for
the default message, the status text of `Code`. -/
structure HTTPError where
  Code : Nat
  Message : Option GoString
  deriving DecidableEq, Repr

/-- The call `echo.NewHTTPError(code)`. -/
def NewHTTPError (code : Nat) (message : Option GoString) : HTTPError :=
  { Code := code, Message := message }

def StatusOK : Nat := 200
def StatusPermanentRedirect : Nat := 308
def StatusBadRequest : Nat := 400
def StatusUnauthorized : Nat := 401
def StatusInternalServerError : Nat := 500

/-- What a handler wrote to the response through the context. -/
inductive Response
  /-- The call `c.Redirect(code, url)`. -/
  | Redirect (code : Nat) (url : GoString)
  /-- The call `c.String(code, s)`. -/
  | String (code : Nat) (s : GoString)
  deriving DecidableEq, Repr

/-- A completed response: the headers the handler set, and what it wrote. -/
structure Reply where
  Header : List (GoString × GoString)
  Body : Response
  deriving DecidableEq, Repr

/-- The `error` a handler returns, with the reply it wrote when that is nil. -/
abbrev Result := Except HTTPError Reply

/-- The struct `putRequest`. -/
structure putRequest where
  Current : GoString
  New : GoString
  deriving DecidableEq, Repr

/-- What decoding the body of a request into a `putRequest` stores: `Current`
is the value of a member the decoder puts in the field `Current` (the field
has the tag `param:"file_id"` only, so for a JSON body the member named
`Current` lands in it), `New` the value of the member `new_file_id`; `none`
when the body has no such member. A request without a body stores nothing. -/
structure BodyMembers where
  Current : Option GoString
  New : Option GoString
  deriving DecidableEq, Repr

/-- An `echo.Context`, as far as the code reads it: the outcome of
`c.Request().BasicAuth()`, the path parameter `file_id`, and the body as the
binder decodes it, or the error of the binder when it cannot (a media type it
does not know, a malformed body). -/
structure Context where
  BasicAuth : Option (GoString × GoString)
  Param : GoString
  Body : Except HTTPError BodyMembers

/-- The call `c.Bind(req)` on the fresh `putRequest` of `PUT`, as the default
binder of echo works: it stores the path parameters first, which sets
`Current` to the path parameter `file_id`, and then decodes the body into the
same struct, so a member of the body that lands in `Current` replaces the
path parameter. `New` is the member `new_file_id`, and empty without one. The
error of the binder is returned as it is. -/
def Context.Bind (c : Context) : Except HTTPError putRequest :=
  match c.Body with
  | .error err => .error err
  | .ok body => .ok { Current := body.Current.getD c.Param, New := body.New.getD [] }

/-- An `echo.HandlerFunc` acting on a state of type `σ`. -/
abbrev HandlerFunc (σ : Type) := Context → σ → Result × σ

/-! ## `cmd/main.go` -/

/-- The struct `handler`. -/
structure handler where
  fileID : GoString
  deriving DecidableEq, Repr

def newHandler (fileID : GoString) : handler := { fileID := fileID }

/-- What the handlers act on: the handler and the environment of the process. -/
structure Server where
  h : handler
  env : Env
  deriving DecidableEq, Repr

/-- The value `fmt.Sprintf(driveURLFmt, id)`. -/
def driveURLFmt (id : GoString) : GoString :=
  lit "https://drive.google.com/file/d/" ++ id ++ lit "/view"

/-- The method `(h *handler) GET`. -/
def handler.GET : HandlerFunc Server := fun _ s =>
  (.ok { Header := [(lit "Cache-Control", lit "no-cache")],
         Body := .Redirect StatusPermanentRedirect (driveURLFmt s.h.fileID) }, s)

/-- The method `(h *handler) PUT`. -/
def handler.PUT : HandlerFunc Server := fun c s =>
  match c.Bind with
  | .error err => (.error err, s)
  | .ok req =>
    if req.Current ≠ s.h.fileID ∨ req.New = [] then
      (.error (NewHTTPError StatusBadRequest none), s)
    else
      match os.Setenv s.env (lit "FILE_ID") req.New with
      | .error err =>
        (.error (NewHTTPError StatusInternalServerError
          (some (lit "failed to set value at FILE_ID: " ++ err.Error))), s)
      | .ok env =>
        let h : handler := { s.h with fileID := req.New }
        (.ok { Header := [], Body := .String StatusOK (driveURLFmt h.fileID) },
          { h := h, env := env })

/-- The middleware `withBasicAuth(user, pass)` applied to `next`. -/
def withBasicAuth {σ : Type} (user pass : GoString) (next : HandlerFunc σ) :
    HandlerFunc σ := fun c s =>
  match c.BasicAuth with
  | none => (.error (NewHTTPError StatusUnauthorized none), s)
  | some (u, p) =>
    if u ≠ user ∨ p ≠ pass then (.error (NewHTTPError StatusUnauthorized none), s)
    else next c s

/-- A request the server routes: `GET /` or `PUT /:file_id`. -/
inductive Request
  | GET (c : Context)
  | PUT (c : Context)

/-- The routes of `main`: `GET /` is `h.GET`, `PUT /:file_id` is `h.PUT` behind
`withBasicAuth(config.Username, config.Password)`. -/
def serve (user pass : GoString) (s : Server) : Request → Result × Server
  | .GET c => handler.GET c s
  | .PUT c => withBasicAuth user pass handler.PUT c s

/-- The state after a sequence of requests served one after the other. -/
def serveAll (user pass : GoString) : Server → List Request → Server
  | s, [] => s
  | s, r :: rs => serveAll user pass (serve user pass s r).2 rs

/-- A handler wrapped so that the second component of the state counts the
times it ran. -/
def counting {σ : Type} (next : HandlerFunc σ) : HandlerFunc (σ × Nat) :=
  fun c s => ((next c s.1).1, ((next c s.1).2, s.2 + 1))

/-! ## `internal/env/env.go` -/

/-- The errors of the loader. Each constructor is one error value of the
source; a constructor that holds an `Error` wraps it (`%w`). -/
inductive Error
  /-- The text `invalid config - must be a struct pointer`. -/
  | invalidConfig
  /-- The format `invalid key %q`. -/
  | invalidKey (key : GoString)
  /-- The text `invalid default option syntax; must follow pattern of
  'default=<value>'`. -/
  | invalidDefault
  /-- The format `%q is not set`. -/
  | notSet (key : GoString)
  /-- A `base64.CorruptInputError`. -/
  | corruptInput
  /-- The format `failed to DecodeString: %w`. -/
  | decodeString (err : Error)
  /-- The format `failed to parse tag: %w`. -/
  | parseTag (err : Error)
  /-- The format `[%s] failed to get tag: %w`. -/
  | getTag (field : GoString) (err : Error)
  /-- An error of `json.Unmarshal`. -/
  | unmarshal
  /-- The format `failed to load: %w`. -/
  | loadFailed (err : Error)
  deriving DecidableEq, Repr

/-- The struct `tag`. -/
structure tag where
  key : GoString
  dfault : GoString
  required : Bool
  base64 : Bool
  deriving DecidableEq, Repr

/-- A character class of a pattern: one byte out of `l`. -/
def charClass (l : List Nat) : RegularExpression Nat :=
  l.foldr (fun b r => .plus (.char b) r) .zero

/-- The class `[A-Z]`. -/
def upperAZ : List Nat := List.range' 65 26

/-- The class `\d`, the ASCII digits. -/
def digit09 : List Nat := List.range' 48 10

/-- The pattern `^[A-Z]([A-Z\d_]*[A-Z\d])?$`; the anchors make the match a
match of the whole string. -/
def tagNamePattern : RegularExpression Nat :=
  .comp (charClass upperAZ)
    (.plus .epsilon
      (.comp (.star (charClass (upperAZ ++ digit09 ++ [95]))) (charClass (upperAZ ++ digit09))))

/-- The function `isValidTagName`, the `MatchString` of the compiled pattern. -/
def isValidTagName (s : GoString) : Bool := tagNamePattern.rmatch s

/-- The loop of `parseTagData` over the options of a tag. -/
def parseTagData.options (tg : tag) : List GoString → Except Error tag
  | [] => .ok tg
  | opt :: rest =>
    if strings.HasPrefix opt (lit "default") then
      let defVal := strings.TrimPrefix (lit "default=") opt
      if defVal = opt then .error .invalidDefault
      else parseTagData.options { tg with dfault := defVal } rest
    else
      parseTagData.options
        { tg with required := tg.required || decide (opt = lit "required"),
                  base64 := tg.base64 || decide (opt = lit "base64") } rest

/-- The function `parseTagData`. -/
def parseTagData (data : GoString) : Except Error tag :=
  let bits := strings.Split data 44
  let key := bits.headD []
  let options := bits.tail
  if !isValidTagName key then .error (.invalidKey key)
  else parseTagData.options { key := key, dfault := [], required := false, base64 := false } options

/-- The value of a character of the base64 alphabet `A-Z a-z 0-9 + /`. -/
def base64.decodeMap (b : Nat) : Option Nat :=
  if 65 ≤ b ∧ b ≤ 90 then some (b - 65)
  else if 97 ≤ b ∧ b ≤ 122 then some (b - 71)
  else if 48 ≤ b ∧ b ≤ 57 then some (b + 4)
  else if b = 43 then some 62
  else if b = 47 then some 63
  else none

/-- The quanta of a base64 text without line breaks: four characters give
three bytes; the last quantum may end in `=` (two bytes) or `==` (one byte),
and nothing may follow the padding. -/
def base64.decodeQuanta : List Nat → Except Error GoString
  | [] => .ok []
  | [a, b, 61, 61] =>
    match base64.decodeMap a, base64.decodeMap b with
    | some x, some y => .ok [(x * 262144 + y * 4096) / 65536 % 256]
    | _, _ => .error .corruptInput
  | [a, b, c, 61] =>
    match base64.decodeMap a, base64.decodeMap b, base64.decodeMap c with
    | some x, some y, some z =>
      .ok [(x * 262144 + y * 4096 + z * 64) / 65536 % 256,
           (x * 262144 + y * 4096 + z * 64) / 256 % 256]
    | _, _, _ => .error .corruptInput
  | a :: b :: c :: d :: rest =>
    match base64.decodeMap a, base64.decodeMap b, base64.decodeMap c, base64.decodeMap d with
    | some x, some y, some z, some w =>
      match base64.decodeQuanta rest with
      | .ok out =>
        .ok ((x * 262144 + y * 4096 + z * 64 + w) / 65536 % 256
          :: (x * 262144 + y * 4096 + z * 64 + w) / 256 % 256
          :: (x * 262144 + y * 4096 + z * 64 + w) % 256 :: out)
      | .error err => .error err
    | _, _, _, _ => .error .corruptInput
  | _ => .error .corruptInput

/-- The call `base64.StdEncoding.DecodeString(s)`: the standard alphabet with
`=` padding; `\r` and `\n` are skipped wherever they stand. -/
def base64.DecodeString (s : GoString) : Except Error GoString :=
  base64.decodeQuanta (s.filter (fun b => b ≠ 10 ∧ b ≠ 13))

/-- The method `(t tag) get`. -/
def tag.get (t : tag) (env : Env) : Except Error GoString :=
  let ok := (os.LookupEnv env t.key).isSome
  let raw := (os.LookupEnv env t.key).getD []
  if t.required ∧ ¬ ok then .error (.notSet t.key)
  else if raw = [] ∧ t.dfault = [] then .ok []
  else
    let raw := if raw = [] then t.dfault else raw
    if ¬ t.base64 then .ok raw
    else
      match base64.DecodeString raw with
      | .error err => .error (.decodeString err)
      | .ok b => .ok b


/-- A field of a struct type, as `reflect` shows it to `load`: its name, its
`env` and `json` tags when it has them, and whether its kind is
`reflect.String`. -/
structure StructField where
  Name : GoString
  env : Option GoString
  json : Option GoString
  isString : Bool
  deriving DecidableEq, Repr

/-- The type of the value handed to `load`: a pointer to a struct with these
fields, or anything else. -/
inductive GoType
  | ptrToStruct (fields : List StructField)
  | other
  deriving DecidableEq, Repr

/-- One element of `data`, the text `fmt.Sprintf(serialFmt, k, v)`: the key
`k` rendered with `%q`, and the value `v` rendered with `%q` when the field is
a string (`quoted`) and with `%s` otherwise. -/
structure Entry where
  key : GoString
  value : GoString
  quoted : Bool
  deriving DecidableEq, Repr

/-- The loop of `load` over the fields of the struct, `data` being the
elements collected so far. -/
def load.fields (env : Env) : List StructField → List Entry → Except Error (List Entry)
  | [], data => .ok data
  | f :: fs, data =>
    match f.env with
    | none => load.fields env fs data
    | some tdata =>
      match parseTagData tdata with
      | .error err => .error (.parseTag err)
      | .ok tg =>
        match tg.get env with
        | .error err => .error (.getTag f.Name err)
        | .ok v =>
          if v = [] then load.fields env fs data
          else
            let k := match f.json with
              | some jTag => (strings.Split jTag 44).headD []
              | none => f.Name
            load.fields env fs (data ++ [{ key := k, value := v, quoted := f.isString }])

/-- The function `load`. The value `cfg` has the type described by `t`;
`unmarshal data cfg` is `json.Unmarshal` of the object with the members `data`
into `cfg`, which depends on the type of `cfg`. -/
def load {ρ : Type} (t : GoType) (unmarshal : List Entry → ρ → Except Error ρ) (cfg : ρ)
    (env : Env) : Except Error ρ :=
  match t with
  | .other => .error .invalidConfig
  | .ptrToStruct fields =>
    match load.fields env fields [] with
    | .error err => .error err
    | .ok data => unmarshal data cfg

/-- The function `Load`. -/
def Load {ρ : Type} (t : GoType) (unmarshal : List Entry → ρ → Except Error ρ) (cfg : ρ)
    (env : Env) : Except Error ρ :=
  match load t unmarshal cfg env with
  | .error err => .error (.loadFailed err)
  | .ok r => .ok r

/-! ### The configuration of `main` -/

/-- The struct type of the variable `config`. -/
structure Config where
  FileID : GoString
  Username : GoString
  Password : GoString
  deriving DecidableEq, Repr

/-- The type of `config` as `reflect` shows it. -/
def configType : GoType :=
  .ptrToStruct
    [ { Name := lit "FileID", env := some (lit "FILE_ID,required"), json := none,
        isString := true },
      { Name := lit "Username", env := some (lit "AUTH_USER,required"), json := none,
        isString := true },
      { Name := lit "Password", env := some (lit "AUTH_PASSWORD,required,base64"), json := none,
        isString := true } ]

/-- The variable `config` before `env.MustLoad`: the zero value. -/
def config : Config := { FileID := [], Username := [], Password := [] }

/-- Whether a byte continues a UTF-8 sequence. -/
def utf8.cont (b : Nat) : Bool := 128 ≤ b ∧ b ≤ 191

/-- Whether the rune `r`, as `%q` renders it, reads back as JSON. `%q` writes
`"` and `\` behind a backslash, a printable rune as itself, `\b \f \n \r \t` as
those escapes and any other rune below `0x10000` as `\u` and four digits: JSON
reads all of these back as `r`. It writes `\a`, `\v`, `\x` and two digits (the
other control characters and DEL) and `\U` and eight digits (an unprintable
rune from `0x10000` on), none of which JSON has. `isPrint` is the table
`strconv.IsPrint` for the runes from `0x10000` on. -/
def jsonReads (isPrint : Nat → Bool) (r : Nat) : Bool :=
  if r < 128 then (32 ≤ r ∧ r ≠ 127) ∨ r = 8 ∨ r = 9 ∨ r = 10 ∨ r = 12 ∨ r = 13
  else if r < 65536 then true
  else isPrint r

/-- Whether `fmt.Sprintf("%q", s)` is a JSON string: `s` is read rune by rune as
`utf8.DecodeRuneInString` does, a byte that starts no valid encoding is
written `\x` and two digits, which JSON does not have, and every rune has to
satisfy `jsonReads`. A JSON string that `%q` wrote decodes to `s`. -/
def quoteIsJSON (isPrint : Nat → Bool) : GoString → Bool
  | [] => true
  | b0 :: s1 =>
    if b0 < 128 then jsonReads isPrint b0 && quoteIsJSON isPrint s1
    else
      match s1 with
      | [] => false
      | b1 :: s2 =>
        if 194 ≤ b0 ∧ b0 ≤ 223 then utf8.cont b1 && quoteIsJSON isPrint s2
        else
          match s2 with
          | [] => false
          | b2 :: s3 =>
            if (b0 = 224 ∧ 160 ≤ b1 ∧ b1 ≤ 191) ∨ (225 ≤ b0 ∧ b0 ≤ 236 ∧ utf8.cont b1)
                ∨ (b0 = 237 ∧ 128 ≤ b1 ∧ b1 ≤ 159) ∨ (238 ≤ b0 ∧ b0 ≤ 239 ∧ utf8.cont b1) then
              utf8.cont b2 && quoteIsJSON isPrint s3
            else
              match s3 with
              | [] => false
              | b3 :: s4 =>
                if (b0 = 240 ∧ 144 ≤ b1 ∧ b1 ≤ 191) ∨ (241 ≤ b0 ∧ b0 ≤ 243 ∧ utf8.cont b1)
                    ∨ (b0 = 244 ∧ 128 ≤ b1 ∧ b1 ≤ 143) then
                  utf8.cont b2 && utf8.cont b3
                    && jsonReads isPrint
                        ((b0 - 240) * 262144 + (b1 - 128) * 4096 + (b2 - 128) * 64 + (b3 - 128))
                    && quoteIsJSON isPrint s4
                else false

/-- The field of `config` a JSON member named `key` is stored in. -/
def Config.set (cfg : Config) (key value : GoString) : Config :=
  if key = lit "FileID" then { cfg with FileID := value }
  else if key = lit "Username" then { cfg with Username := value }
  else if key = lit "Password" then { cfg with Password := value }
  else cfg

/-- The call `json.Unmarshal` of the object with the members `data` into
`config`. Every field of `config` is a string, so every member `load` collects
for it is rendered with `%q` on both sides; a member rendered with `%s` is not
covered and counts as an error. -/
def unmarshalConfig (isPrint : Nat → Bool) : List Entry → Config → Except Error Config
  | [], cfg => .ok cfg
  | e :: es, cfg =>
    if e.quoted && quoteIsJSON isPrint e.key && quoteIsJSON isPrint e.value then
      unmarshalConfig isPrint es (cfg.set e.key e.value)
    else .error .unmarshal

/-- The call `env.Load(config)` of `main`. -/
def LoadConfig (isPrint : Nat → Bool) (env : Env) : Except Error Config :=
  Load configType (unmarshalConfig isPrint) config env

/-! ## Predicates the properties are stated with -/

/-- The handler and the environment agree: `FILE_ID` is set to the handler's
identifier. -/
def writeThrough (s : Server) : Prop :=
  os.LookupEnv s.env (lit "FILE_ID") = some s.h.fileID

instance instDecidableWriteThrough (s : Server) : Decidable (writeThrough s) :=
  inferInstanceAs (Decidable (os.LookupEnv s.env (lit "FILE_ID") = some s.h.fileID))

/-- An uppercase letter `A` to `Z`. -/
def isUpper (b : Nat) : Bool := decide (65 ≤ b) && decide (b ≤ 90)

/-- An uppercase letter or a digit `0` to `9`. -/
def isAlnum (b : Nat) : Bool := isUpper b || (decide (48 ≤ b) && decide (b ≤ 57))

/-- An uppercase letter, a digit or an underscore. -/
def isNameByte (b : Nat) : Bool := isAlnum b || decide (b = 95)

/-- The text of an `env` tag: the name, then the options, separated by
commas. -/
def tagData (name : GoString) : List GoString → GoString
  | [] => name
  | opt :: opts => name ++ 44 :: tagData opt opts

/-! ## Properties of `cmd/main.go` -/

/-- The environment table after a successful `os.Setenv` binds the key to the
value. -/
theorem LookupEnv_of_Setenv (env env' : Env) (key value : GoString)
    (h : os.Setenv env key value = .ok env') : os.LookupEnv env' key = some value := by
  unfold os.Setenv at h
  split at h
  · cases h
  · cases h
    simp [os.LookupEnv]

/-- The call `os.Setenv` has one error only. -/
theorem Setenv_cases (env : Env) (key value : GoString) :
    os.Setenv env key value = .error .EINVAL ∨ ∃ env', os.Setenv env key value = .ok env' := by
  unfold os.Setenv
  split
  · exact Or.inl rfl
  · exact Or.inr ⟨_, rfl⟩

/-- What `c.Bind` delivers for a body the binder decodes. -/
theorem Bind_of_body (c : Context) (body : BodyMembers) (h : c.Body = .ok body) :
    c.Bind = .ok { Current := body.Current.getD c.Param, New := body.New.getD [] } := by
  simp [Context.Bind, h]

/-- The outcome of a PUT that passes validation and whose value the
environment accepts. -/
theorem PUT_of_valid (s : Server) (c : Context) (req : putRequest) (env' : Env)
    (hbind : c.Bind = .ok req) (hcur : req.Current = s.h.fileID) (hnew : req.New ≠ [])
    (hset : os.Setenv s.env (lit "FILE_ID") req.New = .ok env') :
    handler.PUT c s
      = (.ok { Header := [], Body := .String StatusOK (driveURLFmt req.New) },
          { h := { fileID := req.New }, env := env' }) := by
  simp [handler.PUT, hbind, hcur, hnew, hset]

/-- The outcome of a PUT that fails validation. -/
theorem PUT_of_invalid (s : Server) (c : Context) (req : putRequest)
    (hbind : c.Bind = .ok req) (hbad : req.Current ≠ s.h.fileID ∨ req.New = []) :
    handler.PUT c s = (.error (NewHTTPError StatusBadRequest none), s) := by
  simp only [handler.PUT, hbind]
  rw [if_pos hbad]

/-- The outcome of a PUT whose body the binder rejects: the error of the
binder, the state as it was. -/
theorem PUT_of_bind_error (s : Server) (c : Context) (err : HTTPError)
    (hbody : c.Body = .error err) : handler.PUT c s = (.error err, s) := by
  simp [handler.PUT, Context.Bind, hbody]

/-- C1 as stated fails: with the identifier `xyz`, the request `PUT /xyz` whose
body has the members `Current` = `abc` and `new_file_id` = `new1` carries the
path identifier `xyz` and a non-empty new_file_id, and `os.Setenv` would take
it; the body's `Current` replaces the path identifier in the bound request,
and PUT answers 400, the state unchanged. -/
theorem PUT_path_identifier_replaced :
    (⟨none, lit "xyz", .ok ⟨some (lit "abc"), some (lit "new1")⟩⟩ : Context).Param
        = (⟨⟨lit "xyz"⟩, [(lit "FILE_ID", lit "xyz")]⟩ : Server).h.fileID
      ∧ lit "new1" ≠ []
      ∧ os.Setenv (⟨⟨lit "xyz"⟩, [(lit "FILE_ID", lit "xyz")]⟩ : Server).env (lit "FILE_ID") (lit "new1")
        = .ok [(lit "FILE_ID", lit "new1")]
      ∧ (handler.PUT ⟨none, lit "xyz", .ok ⟨some (lit "abc"), some (lit "new1")⟩⟩ ⟨⟨lit "xyz"⟩, [(lit "FILE_ID", lit "xyz")]⟩).1
        = .error { Code := 400, Message := none }
      ∧ (handler.PUT ⟨none, lit "xyz", .ok ⟨some (lit "abc"), some (lit "new1")⟩⟩ ⟨⟨lit "xyz"⟩, [(lit "FILE_ID", lit "xyz")]⟩).2
        = ⟨⟨lit "xyz"⟩, [(lit "FILE_ID", lit "xyz")]⟩ := by
  decide

/-- C1, amended: a PUT whose body the binder decodes, whose identifier as
bound (the member `Current` of the body when it has one, the path identifier
otherwise) is the current identifier and whose new_file_id `n` is not empty,
when `os.Setenv` succeeds, answers 200 with the drive URL of `n`, makes `n` the
handler's identifier and the value of `FILE_ID`, and a GET on the resulting
state redirects (308) to the same URL. -/
theorem PUT_success (s : Server) (c c' : Context) (body : BodyMembers) (n : GoString)
    (env' : Env) (hbody : c.Body = .ok body)
    (hcur : body.Current.getD c.Param = s.h.fileID)
    (hnew : body.New = some n) (hn : n ≠ [])
    (hset : os.Setenv s.env (lit "FILE_ID") n = .ok env') :
    (handler.PUT c s).1
        = .ok { Header := [],
                Body := .String 200 (lit "https://drive.google.com/file/d/" ++ n ++ lit "/view") }
      ∧ (handler.PUT c s).2.h.fileID = n
      ∧ (handler.PUT c s).2.env = env'
      ∧ os.LookupEnv (handler.PUT c s).2.env (lit "FILE_ID") = some n
      ∧ (handler.GET c' (handler.PUT c s).2).1
        = .ok { Header := [(lit "Cache-Control", lit "no-cache")],
                Body := .Redirect 308
                  (lit "https://drive.google.com/file/d/" ++ n ++ lit "/view") } := by
  have hbind : c.Bind = .ok { Current := body.Current.getD c.Param, New := n } := by
    rw [Bind_of_body c body hbody, hnew]
    rfl
  rw [PUT_of_valid s c _ env' hbind hcur hn hset]
  exact ⟨rfl, rfl, rfl, LookupEnv_of_Setenv _ _ _ _ hset, rfl⟩

/-- The witness of the amended C1: the scenario `PUT /xyz` with the body
`{"new_file_id":"new1"}`, followed by `GET /`. -/
theorem PUT_success_witness :
    (handler.PUT ⟨none, lit "xyz", .ok ⟨none, some (lit "new1")⟩⟩ ⟨⟨lit "xyz"⟩, [(lit "FILE_ID", lit "xyz")]⟩).1
        = .ok { Header := [],
                Body := .String 200
                  (lit "https://drive.google.com/file/d/" ++ lit "new1" ++ lit "/view") }
      ∧ (handler.PUT ⟨none, lit "xyz", .ok ⟨none, some (lit "new1")⟩⟩ ⟨⟨lit "xyz"⟩, [(lit "FILE_ID", lit "xyz")]⟩).2.h.fileID
        = lit "new1"
      ∧ (handler.PUT ⟨none, lit "xyz", .ok ⟨none, some (lit "new1")⟩⟩ ⟨⟨lit "xyz"⟩, [(lit "FILE_ID", lit "xyz")]⟩).2.env
        = [(lit "FILE_ID", lit "new1")]
      ∧ os.LookupEnv (handler.PUT ⟨none, lit "xyz", .ok ⟨none, some (lit "new1")⟩⟩ ⟨⟨lit "xyz"⟩, [(lit "FILE_ID", lit "xyz")]⟩).2.env
          (lit "FILE_ID") = some (lit "new1")
      ∧ (handler.GET ⟨none, [], .ok ⟨none, none⟩⟩
          (handler.PUT ⟨none, lit "xyz", .ok ⟨none, some (lit "new1")⟩⟩ ⟨⟨lit "xyz"⟩, [(lit "FILE_ID", lit "xyz")]⟩).2).1
        = .ok { Header := [(lit "Cache-Control", lit "no-cache")],
                Body := .Redirect 308
                  (lit "https://drive.google.com/file/d/" ++ lit "new1" ++ lit "/view") } :=
  PUT_success ⟨⟨lit "xyz"⟩, [(lit "FILE_ID", lit "xyz")]⟩ ⟨none, lit "xyz", .ok ⟨none, some (lit "new1")⟩⟩
    ⟨none, [], .ok ⟨none, none⟩⟩ ⟨none, some (lit "new1")⟩ (lit "new1")
    [(lit "FILE_ID", lit "new1")] rfl rfl rfl (by decide) (by decide)

/-- C2 as stated fails: with the identifier `xyz`, the request `PUT /abc` whose
body has the members `Current` = `xyz` and `new_file_id` = `new1` carries a
path identifier that differs from the current one, yet PUT answers 200 and
changes the identifier and `FILE_ID` to `new1`; and a `PUT /abc` whose body
the binder rejects with 415 fails with that error, not with the 400
validation error. -/
theorem PUT_other_path_succeeds :
    (⟨none, lit "abc", .ok ⟨some (lit "xyz"), some (lit "new1")⟩⟩ : Context).Param
        ≠ (⟨⟨lit "xyz"⟩, [(lit "FILE_ID", lit "xyz")]⟩ : Server).h.fileID
      ∧ (handler.PUT ⟨none, lit "abc", .ok ⟨some (lit "xyz"), some (lit "new1")⟩⟩ ⟨⟨lit "xyz"⟩, [(lit "FILE_ID", lit "xyz")]⟩).1
        = .ok { Header := [],
                Body := .String 200 (lit "https://drive.google.com/file/d/new1/view") }
      ∧ (handler.PUT ⟨none, lit "abc", .ok ⟨some (lit "xyz"), some (lit "new1")⟩⟩
          ⟨⟨lit "xyz"⟩, [(lit "FILE_ID", lit "xyz")]⟩).2.h.fileID = lit "new1"
      ∧ os.LookupEnv (handler.PUT ⟨none, lit "abc", .ok ⟨some (lit "xyz"), some (lit "new1")⟩⟩
          ⟨⟨lit "xyz"⟩, [(lit "FILE_ID", lit "xyz")]⟩).2.env (lit "FILE_ID") = some (lit "new1")
      ∧ (handler.PUT ⟨none, lit "abc", .error { Code := 415, Message := none }⟩ ⟨⟨lit "xyz"⟩, [(lit "FILE_ID", lit "xyz")]⟩).1
        = .error { Code := 415, Message := none }
      ∧ (handler.PUT ⟨none, lit "abc", .error { Code := 415, Message := none }⟩ ⟨⟨lit "xyz"⟩, [(lit "FILE_ID", lit "xyz")]⟩).1
        ≠ .error { Code := 400, Message := none } := by
  decide

/-- C2, amended: a PUT whose body the binder decodes and whose identifier as
bound (the member `Current` of the body when it has one, the path identifier
otherwise) differs from the current identifier, or whose new_file_id is empty
or missing, fails with the 400 validation error and changes neither the
handler's identifier nor the environment; a PUT whose body the binder rejects
fails with the error of the binder, the state unchanged as well. -/
theorem PUT_invalid (s : Server) (c : Context) (body : BodyMembers)
    (hbody : c.Body = .ok body)
    (hbad : body.Current.getD c.Param ≠ s.h.fileID ∨ body.New.getD [] = []) :
    ((handler.PUT c s).1 = .error { Code := 400, Message := none }
        ∧ (handler.PUT c s).2.h.fileID = s.h.fileID
        ∧ (handler.PUT c s).2.env = s.env
        ∧ os.LookupEnv (handler.PUT c s).2.env (lit "FILE_ID")
          = os.LookupEnv s.env (lit "FILE_ID"))
      ∧ (∀ (c' : Context) (err : HTTPError), c'.Body = .error err →
          (handler.PUT c' s).1 = .error err ∧ (handler.PUT c' s).2 = s) := by
  constructor
  · rw [PUT_of_invalid s c _ (Bind_of_body c body hbody) hbad]
    exact ⟨rfl, rfl, rfl, rfl⟩
  · intro c' err herr
    rw [PUT_of_bind_error s c' err herr]
    exact ⟨rfl, rfl⟩

/-- The witness of the amended C2: `PUT /xyz` with an empty new_file_id, the
path identifier being the current one. -/
theorem PUT_invalid_witness :
    ((handler.PUT ⟨none, lit "xyz", .ok ⟨none, some []⟩⟩ ⟨⟨lit "xyz"⟩, [(lit "FILE_ID", lit "xyz")]⟩).1
          = .error { Code := 400, Message := none }
        ∧ (handler.PUT ⟨none, lit "xyz", .ok ⟨none, some []⟩⟩ ⟨⟨lit "xyz"⟩, [(lit "FILE_ID", lit "xyz")]⟩).2.h.fileID
          = (⟨⟨lit "xyz"⟩, [(lit "FILE_ID", lit "xyz")]⟩ : Server).h.fileID
        ∧ (handler.PUT ⟨none, lit "xyz", .ok ⟨none, some []⟩⟩ ⟨⟨lit "xyz"⟩, [(lit "FILE_ID", lit "xyz")]⟩).2.env
          = (⟨⟨lit "xyz"⟩, [(lit "FILE_ID", lit "xyz")]⟩ : Server).env
        ∧ os.LookupEnv (handler.PUT ⟨none, lit "xyz", .ok ⟨none, some []⟩⟩ ⟨⟨lit "xyz"⟩, [(lit "FILE_ID", lit "xyz")]⟩).2.env
            (lit "FILE_ID")
          = os.LookupEnv (⟨⟨lit "xyz"⟩, [(lit "FILE_ID", lit "xyz")]⟩ : Server).env (lit "FILE_ID"))
      ∧ (∀ (c' : Context) (err : HTTPError), c'.Body = .error err →
          (handler.PUT c' ⟨⟨lit "xyz"⟩, [(lit "FILE_ID", lit "xyz")]⟩).1 = .error err ∧ (handler.PUT c' ⟨⟨lit "xyz"⟩, [(lit "FILE_ID", lit "xyz")]⟩).2 = ⟨⟨lit "xyz"⟩, [(lit "FILE_ID", lit "xyz")]⟩) :=
  PUT_invalid ⟨⟨lit "xyz"⟩, [(lit "FILE_ID", lit "xyz")]⟩ ⟨none, lit "xyz", .ok ⟨none, some []⟩⟩ ⟨none, some []⟩ rfl (Or.inr rfl)

/-- C3 as stated fails: the new_file_id `n\x00w` passes validation against the
identifier `xyz` and `os.Setenv` rejects it; PUT answers 500, and the handler's
identifier afterwards is still `xyz`, not the new one. -/
theorem PUT_persist_failure_keeps_identifier :
    (⟨none, lit "xyz", .ok ⟨none, some [110, 0, 119]⟩⟩ : Context).Bind
        = .ok { Current := lit "xyz", New := [110, 0, 119] }
      ∧ (⟨lit "xyz", [110, 0, 119]⟩ : putRequest).Current = lit "xyz"
      ∧ (⟨lit "xyz", [110, 0, 119]⟩ : putRequest).New ≠ []
      ∧ os.Setenv [(lit "FILE_ID", lit "xyz")] (lit "FILE_ID") [110, 0, 119] = .error .EINVAL
      ∧ (handler.PUT ⟨none, lit "xyz", .ok ⟨none, some [110, 0, 119]⟩⟩
          ⟨⟨lit "xyz"⟩, [(lit "FILE_ID", lit "xyz")]⟩).1
        = .error { Code := 500,
                   Message := some (lit "failed to set value at FILE_ID: setenv: invalid argument") }
      ∧ (handler.PUT ⟨none, lit "xyz", .ok ⟨none, some [110, 0, 119]⟩⟩
          ⟨⟨lit "xyz"⟩, [(lit "FILE_ID", lit "xyz")]⟩).2.h.fileID = lit "xyz"
      ∧ (handler.PUT ⟨none, lit "xyz", .ok ⟨none, some [110, 0, 119]⟩⟩
          ⟨⟨lit "xyz"⟩, [(lit "FILE_ID", lit "xyz")]⟩).2.h.fileID ≠ [110, 0, 119] := by
  decide

/-- C3, amended: a PUT that passes validation but for which `os.Setenv` fails
answers 500 with the error's text in the message, and leaves the handler's
identifier and the environment as they were. -/
theorem PUT_persist_failure (s : Server) (c : Context) (req : putRequest) (err : Errno)
    (hbind : c.Bind = .ok req) (hcur : req.Current = s.h.fileID) (hnew : req.New ≠ [])
    (hset : os.Setenv s.env (lit "FILE_ID") req.New = .error err) :
    (handler.PUT c s).1
        = .error { Code := 500,
                   Message := some (lit "failed to set value at FILE_ID: " ++ err.Error) }
      ∧ (handler.PUT c s).2.h.fileID = s.h.fileID
      ∧ (handler.PUT c s).2.env = s.env := by
  have hput : handler.PUT c s
      = (.error (NewHTTPError StatusInternalServerError
          (some (lit "failed to set value at FILE_ID: " ++ err.Error))), s) := by
    simp [handler.PUT, hbind, hcur, hnew, hset]
  rw [hput]
  exact ⟨rfl, rfl, rfl⟩

/-- The witness of the amended C3: a new_file_id that holds a NUL byte. -/
theorem PUT_persist_failure_witness :
    (handler.PUT ⟨none, lit "xyz", .ok ⟨none, some [110, 0, 119]⟩⟩
        ⟨⟨lit "xyz"⟩, [(lit "FILE_ID", lit "xyz")]⟩).1
        = .error { Code := 500,
                   Message := some (lit "failed to set value at FILE_ID: " ++ Errno.EINVAL.Error) }
      ∧ (handler.PUT ⟨none, lit "xyz", .ok ⟨none, some [110, 0, 119]⟩⟩
          ⟨⟨lit "xyz"⟩, [(lit "FILE_ID", lit "xyz")]⟩).2.h.fileID = lit "xyz"
      ∧ (handler.PUT ⟨none, lit "xyz", .ok ⟨none, some [110, 0, 119]⟩⟩
          ⟨⟨lit "xyz"⟩, [(lit "FILE_ID", lit "xyz")]⟩).2.env = [(lit "FILE_ID", lit "xyz")] :=
  PUT_persist_failure ⟨⟨lit "xyz"⟩, [(lit "FILE_ID", lit "xyz")]⟩
    ⟨none, lit "xyz", .ok ⟨none, some [110, 0, 119]⟩⟩ ⟨lit "xyz", [110, 0, 119]⟩ .EINVAL rfl rfl
    (by decide) (by decide)

/-- C4: the middleware runs the wrapped handler, once, and returns its result
exactly when the request carries the configured pair; for any other request
(no credentials, or a pair that differs in either part) it returns the 401
error, does not run the wrapped handler and leaves the state, so the
identifier of the handler behind it, as it was. -/
theorem withBasicAuth_spec {σ : Type} (user pass : GoString) (next : HandlerFunc σ)
    (c : Context) (s : σ) (srv : Server) :
    ((withBasicAuth user pass (counting next) c (s, 0)).2.2 = 1
        ↔ c.BasicAuth = some (user, pass))
      ∧ (c.BasicAuth = some (user, pass) →
          withBasicAuth user pass next c s = next c s)
      ∧ (c.BasicAuth ≠ some (user, pass) →
          withBasicAuth user pass next c s = (.error { Code := 401, Message := none }, s)
            ∧ (withBasicAuth user pass (counting next) c (s, 0)).2.2 = 0
            ∧ (withBasicAuth user pass handler.PUT c srv).2.h.fileID = srv.h.fileID) := by
  rcases hc : c.BasicAuth with _ | ⟨u, p⟩
  · simp [withBasicAuth, hc, NewHTTPError, StatusUnauthorized]
  · by_cases hup : u = user ∧ p = pass
    · obtain ⟨rfl, rfl⟩ := hup
      simp [withBasicAuth, hc, counting]
    · have hne : ¬ ((u, p) = (user, pass)) := by
        intro h
        exact hup (Prod.mk.inj h)
      have hor : u ≠ user ∨ p ≠ pass := by
        by_cases h1 : u = user
        · exact Or.inr (fun h2 => hup ⟨h1, h2⟩)
        · exact Or.inl h1
      simp [withBasicAuth, hc, hne, hor, NewHTTPError, StatusUnauthorized]

/-- C5 as stated fails: with the identifier `a`, the two requests `PUT /a` with
the different, non-empty new identifiers `a` and `b`, applied in this order,
both succeed. -/
theorem PUT_twice_both_succeed :
    lit "a" ≠ lit "b" ∧ lit "a" ≠ [] ∧ lit "b" ≠ []
      ∧ (handler.PUT ⟨none, lit "a", .ok ⟨none, some (lit "a")⟩⟩ ⟨⟨lit "a"⟩, []⟩).1
        = .ok { Header := [], Body := .String 200 (lit "https://drive.google.com/file/d/a/view") }
      ∧ (handler.PUT ⟨none, lit "a", .ok ⟨none, some (lit "b")⟩⟩
          (handler.PUT ⟨none, lit "a", .ok ⟨none, some (lit "a")⟩⟩ ⟨⟨lit "a"⟩, []⟩).2).1
        = .ok { Header := [], Body := .String 200 (lit "https://drive.google.com/file/d/b/view") } := by
  decide

/-- C5, amended: of two PUTs whose bodies the binder decodes, whose identifier
as bound (the member `Current` of the body when it has one, the path
identifier otherwise) is the current identifier `c`, and whose new identifiers
are not empty, differ from each other and both differ from `c`, applied one
after the other, in either order, with `os.Setenv` succeeding, the first
succeeds and the second fails with the 400 error. -/
theorem PUT_twice (s : Server) (c1 c2 : Context) (b1 b2 : BodyMembers) (n1 n2 : GoString)
    (hb1 : c1.Body = .ok b1) (hb2 : c2.Body = .ok b2)
    (hcur1 : b1.Current.getD c1.Param = s.h.fileID)
    (hcur2 : b2.Current.getD c2.Param = s.h.fileID)
    (hnew1 : b1.New = some n1) (hnew2 : b2.New = some n2)
    (_hne : n1 ≠ n2) (h1 : n1 ≠ []) (h2 : n2 ≠ [])
    (hc1 : n1 ≠ s.h.fileID) (hc2 : n2 ≠ s.h.fileID)
    (hs1 : os.Setenv s.env (lit "FILE_ID") n1 ≠ .error .EINVAL)
    (hs2 : os.Setenv s.env (lit "FILE_ID") n2 ≠ .error .EINVAL) :
    ((handler.PUT c1 s).1
        = .ok { Header := [], Body := .String 200 (driveURLFmt n1) }
      ∧ (handler.PUT c2 (handler.PUT c1 s).2).1 = .error { Code := 400, Message := none })
    ∧ ((handler.PUT c2 s).1
        = .ok { Header := [], Body := .String 200 (driveURLFmt n2) }
      ∧ (handler.PUT c1 (handler.PUT c2 s).2).1 = .error { Code := 400, Message := none }) := by
  rcases Setenv_cases s.env (lit "FILE_ID") n1 with he1 | ⟨e1, he1⟩
  · exact absurd he1 hs1
  rcases Setenv_cases s.env (lit "FILE_ID") n2 with he2 | ⟨e2, he2⟩
  · exact absurd he2 hs2
  have hbind1 : c1.Bind = .ok { Current := b1.Current.getD c1.Param, New := n1 } := by
    rw [Bind_of_body c1 b1 hb1, hnew1]
    rfl
  have hbind2 : c2.Bind = .ok { Current := b2.Current.getD c2.Param, New := n2 } := by
    rw [Bind_of_body c2 b2 hb2, hnew2]
    rfl
  have hp1 := PUT_of_valid s c1 _ e1 hbind1 hcur1 h1 he1
  have hp2 := PUT_of_valid s c2 _ e2 hbind2 hcur2 h2 he2
  rw [hp1, hp2]
  refine ⟨⟨rfl, ?_⟩, ⟨rfl, ?_⟩⟩
  · rw [PUT_of_invalid _ c2 _ hbind2 (Or.inl (by rw [hcur2]; exact fun h => hc1 h.symm))]
    rfl
  · rw [PUT_of_invalid _ c1 _ hbind1 (Or.inl (by rw [hcur1]; exact fun h => hc2 h.symm))]
    rfl

/-- The witness of the amended C5: the identifier `xyz` and the requests
`PUT /xyz` with the new identifiers `new1` and `new2`. -/
theorem PUT_twice_witness :
    ((handler.PUT ⟨none, lit "xyz", .ok ⟨none, some (lit "new1")⟩⟩ ⟨⟨lit "xyz"⟩, []⟩).1
        = .ok { Header := [], Body := .String 200 (driveURLFmt (lit "new1")) }
      ∧ (handler.PUT ⟨none, lit "xyz", .ok ⟨none, some (lit "new2")⟩⟩
          (handler.PUT ⟨none, lit "xyz", .ok ⟨none, some (lit "new1")⟩⟩
            ⟨⟨lit "xyz"⟩, []⟩).2).1
        = .error { Code := 400, Message := none })
    ∧ ((handler.PUT ⟨none, lit "xyz", .ok ⟨none, some (lit "new2")⟩⟩ ⟨⟨lit "xyz"⟩, []⟩).1
        = .ok { Header := [], Body := .String 200 (driveURLFmt (lit "new2")) }
      ∧ (handler.PUT ⟨none, lit "xyz", .ok ⟨none, some (lit "new1")⟩⟩
          (handler.PUT ⟨none, lit "xyz", .ok ⟨none, some (lit "new2")⟩⟩
            ⟨⟨lit "xyz"⟩, []⟩).2).1
        = .error { Code := 400, Message := none }) :=
  PUT_twice ⟨⟨lit "xyz"⟩, []⟩ ⟨none, lit "xyz", .ok ⟨none, some (lit "new1")⟩⟩
    ⟨none, lit "xyz", .ok ⟨none, some (lit "new2")⟩⟩ ⟨none, some (lit "new1")⟩
    ⟨none, some (lit "new2")⟩ (lit "new1") (lit "new2") rfl rfl rfl rfl rfl rfl
    (by decide) (by decide) (by decide) (by decide) (by decide) (by decide) (by decide)

/-- A PUT keeps the handler and the environment in agreement, whatever its
outcome. -/
theorem writeThrough_PUT (c : Context) (s : Server) (h : writeThrough s) :
    writeThrough (handler.PUT c s).2 := by
  unfold handler.PUT
  split
  · exact h
  · split
    · exact h
    · split
      · exact h
      · rename_i req _ env' hset
        exact LookupEnv_of_Setenv _ _ _ _ hset

/-- Serving a request keeps the handler and the environment in agreement. -/
theorem writeThrough_serve (user pass : GoString) (s : Server) (r : Request)
    (h : writeThrough s) : writeThrough (serve user pass s r).2 := by
  cases r with
  | GET c => exact h
  | PUT c =>
    show writeThrough (withBasicAuth user pass handler.PUT c s).2
    unfold withBasicAuth
    split
    · exact h
    · split
      · exact h
      · exact writeThrough_PUT c s h

/-- C10: when the handler's identifier is the value of `FILE_ID`, it still is
after a GET, after a PUT whatever its outcome, and after every sequence of
requests served one after the other. -/
theorem writeThrough_invariant (user pass : GoString) (s : Server) (c : Context)
    (rs : List Request) (h : writeThrough s) :
    writeThrough (handler.GET c s).2 ∧ writeThrough (handler.PUT c s).2
      ∧ writeThrough (serveAll user pass s rs) := by
  refine ⟨h, writeThrough_PUT c s h, ?_⟩
  induction rs generalizing s with
  | nil => exact h
  | cons r rs ih => exact ih _ (writeThrough_serve user pass s r h)

/-- The witness of C10: a successful PUT, a PUT that fails validation, a PUT
whose value the environment rejects, a PUT without credentials and a PUT
whose body the binder rejects, with GETs in between. -/
theorem writeThrough_invariant_witness :
    writeThrough (handler.GET ⟨none, lit "xyz", .ok ⟨none, some (lit "new1")⟩⟩ ⟨⟨lit "xyz"⟩, [(lit "FILE_ID", lit "xyz")]⟩).2
      ∧ writeThrough (handler.PUT ⟨none, lit "xyz", .ok ⟨none, some (lit "new1")⟩⟩ ⟨⟨lit "xyz"⟩, [(lit "FILE_ID", lit "xyz")]⟩).2
      ∧ writeThrough (serveAll (lit "admin") (lit "secret") ⟨⟨lit "xyz"⟩, [(lit "FILE_ID", lit "xyz")]⟩
          [ .PUT ⟨some (lit "admin", lit "secret"), lit "xyz", .ok ⟨none, some (lit "new1")⟩⟩,
            .GET ⟨none, [], .ok ⟨none, none⟩⟩,
            .PUT ⟨some (lit "admin", lit "secret"), lit "xyz", .ok ⟨none, some (lit "new2")⟩⟩,
            .PUT ⟨some (lit "admin", lit "secret"), lit "new1", .ok ⟨none, some [110, 0, 119]⟩⟩,
            .PUT ⟨none, lit "new1", .ok ⟨none, some (lit "new3")⟩⟩,
            .PUT ⟨some (lit "admin", lit "secret"), lit "new1",
              .error { Code := 415, Message := none }⟩,
            .GET ⟨none, [], .ok ⟨none, none⟩⟩ ]) :=
  writeThrough_invariant (lit "admin") (lit "secret") ⟨⟨lit "xyz"⟩, [(lit "FILE_ID", lit "xyz")]⟩
    ⟨none, lit "xyz", .ok ⟨none, some (lit "new1")⟩⟩ _ (by decide)

/-! ## Properties of `internal/env/env.go` -/

/-- A character class matches the strings of one byte out of the class. -/
theorem charClass_rmatch (l : List Nat) (x : List Nat) :
    (charClass l).rmatch x = true ↔ ∃ b ∈ l, x = [b] := by
  induction l with
  | nil =>
    simp [charClass, RegularExpression.zero_def, RegularExpression.zero_rmatch]
  | cons a l ih =>
    have hcons : charClass (a :: l) = RegularExpression.char a + charClass l := rfl
    rw [hcons, RegularExpression.add_rmatch_iff, RegularExpression.char_rmatch_iff, ih]
    constructor
    · rintro (hx | ⟨b, hb, hx⟩)
      · exact ⟨a, List.mem_cons_self _ _, hx⟩
      · exact ⟨b, List.mem_cons_of_mem _ hb, hx⟩
    · rintro ⟨b, hb, hx⟩
      rcases List.mem_cons.mp hb with rfl | hb
      · exact Or.inl hx
      · exact Or.inr ⟨b, hb, hx⟩

/-- The strings `isValidTagName` accepts: a letter, then nothing or any number
of bytes of `[A-Z\d_]` and a last byte of `[A-Z\d]`. -/
theorem isValidTagName_iff (s : GoString) :
    isValidTagName s = true ↔
      ∃ b rest, s = b :: rest ∧ b ∈ upperAZ ∧
        (rest = [] ∨ ∃ mid last, rest = mid ++ [last]
          ∧ (∀ m ∈ mid, m ∈ upperAZ ++ digit09 ++ [95]) ∧ last ∈ upperAZ ++ digit09) := by
  unfold isValidTagName tagNamePattern
  rw [RegularExpression.comp_def, RegularExpression.mul_rmatch_iff]
  constructor
  · rintro ⟨t, u, rfl, ht, hu⟩
    obtain ⟨b, hb, rfl⟩ := (charClass_rmatch _ _).mp ht
    refine ⟨b, u, rfl, hb, ?_⟩
    rw [RegularExpression.plus_def, RegularExpression.add_rmatch_iff] at hu
    rcases hu with hu | hu
    · left
      rw [RegularExpression.one_def, RegularExpression.one_rmatch_iff] at hu
      exact hu
    · right
      rw [RegularExpression.comp_def, RegularExpression.mul_rmatch_iff] at hu
      obtain ⟨v, w, rfl, hv, hw⟩ := hu
      obtain ⟨last, hlast, rfl⟩ := (charClass_rmatch _ _).mp hw
      refine ⟨v, last, rfl, ?_, hlast⟩
      rw [RegularExpression.star_rmatch_iff] at hv
      obtain ⟨S, rfl, hS⟩ := hv
      intro m hm
      obtain ⟨t, ht, hmt⟩ := List.mem_flatten.mp hm
      obtain ⟨b', hb', rfl⟩ := (charClass_rmatch _ _).mp (hS t ht).2
      rw [List.mem_singleton] at hmt
      rw [hmt]
      exact hb'
  · rintro ⟨b, rest, rfl, hb, hrest⟩
    refine ⟨[b], rest, rfl, (charClass_rmatch _ _).mpr ⟨b, hb, rfl⟩, ?_⟩
    rw [RegularExpression.plus_def, RegularExpression.add_rmatch_iff]
    rcases hrest with rfl | ⟨mid, last, rfl, hmid, hlast⟩
    · left
      rw [RegularExpression.one_def, RegularExpression.one_rmatch_iff]
    · right
      rw [RegularExpression.comp_def, RegularExpression.mul_rmatch_iff]
      refine ⟨mid, [last], rfl, ?_, (charClass_rmatch _ _).mpr ⟨last, hlast, rfl⟩⟩
      rw [RegularExpression.star_rmatch_iff]
      refine ⟨mid.map (fun m => [m]), ?_, ?_⟩
      · clear hmid
        induction mid with
        | nil => rfl
        | cons m mid ih =>
          show m :: mid = [m] ++ (List.map (fun m => [m]) mid).flatten
          rw [← ih]
          rfl
      · intro t ht
        obtain ⟨m, hm, rfl⟩ := List.mem_map.mp ht
        exact ⟨by simp, (charClass_rmatch _ _).mpr ⟨m, hmid m hm, rfl⟩⟩

/-- A string without the separator is the one piece of its split. -/
theorem Split_of_not_mem (s : GoString) (sep : Nat) (h : sep ∉ s) :
    strings.Split s sep = [s] := by
  induction s with
  | nil => rfl
  | cons b s ih =>
    have hb : b ≠ sep := fun e => h (e ▸ List.mem_cons_self _ _)
    have hs : sep ∉ s := fun e => h (List.mem_cons_of_mem _ e)
    simp [strings.Split, hb, ih hs]

/-- The first piece of a split ends at the first separator. -/
theorem Split_append (s r : GoString) (sep : Nat) (h : sep ∉ s) :
    strings.Split (s ++ sep :: r) sep = s :: strings.Split r sep := by
  induction s with
  | nil => simp [strings.Split]
  | cons b s ih =>
    have hb : b ≠ sep := fun e => h (e ▸ List.mem_cons_self _ _)
    have hs : sep ∉ s := fun e => h (List.mem_cons_of_mem _ e)
    simp [strings.Split, hb, ih hs]

/-- The first piece of the text of a tag is its name. -/
theorem Split_tagData_head (name : GoString) (opts : List GoString) (h : 44 ∉ name) :
    (strings.Split (tagData name opts) 44).headD [] = name := by
  cases opts with
  | nil => simp [tagData, Split_of_not_mem name 44 h]
  | cons opt opts => simp [tagData, Split_append name _ 44 h]

/-- An option that starts with `default` is never what `strings.TrimPrefix`
returns for it, the arguments being passed as the source passes them. -/
theorem TrimPrefix_default_ne (opt : GoString)
    (h : strings.HasPrefix opt (lit "default") = true) :
    strings.TrimPrefix (lit "default=") opt ≠ opt := by
  have h7 : 7 ≤ opt.length := by
    have := (List.isPrefixOf_iff_prefix.mp h).length_le
    simpa [lit] using this
  unfold strings.TrimPrefix
  split
  · intro heq
    have hlen := congrArg List.length heq
    rw [List.length_drop] at hlen
    have h8 : (lit "default=").length = 8 := by decide
    omega
  · rename_i hno
    intro heq
    apply hno
    unfold strings.HasPrefix
    rw [← heq]
    exact List.isPrefixOf_iff_prefix.mpr (List.prefix_refl _)

/-- Whatever follows `default` in an option, the default the loop stores is the
text `default=`; the two exceptions are the options `default` and `default=`
themselves. -/
theorem options_default (tg : tag) (opt : GoString) (rest : List GoString)
    (h : strings.HasPrefix opt (lit "default") = true)
    (h1 : opt ≠ lit "default") (h2 : opt ≠ lit "default=") :
    parseTagData.options tg (opt :: rest)
      = parseTagData.options { tg with dfault := lit "default=" } rest := by
  have hno : strings.HasPrefix (lit "default=") opt = false := by
    cases hp : strings.HasPrefix (lit "default=") opt with
    | false => rfl
    | true =>
      exfalso
      have hpre := List.isPrefixOf_iff_prefix.mp hp
      have h7 : 7 ≤ opt.length := by
        have := (List.isPrefixOf_iff_prefix.mp h).length_le
        simpa [lit] using this
      have h8 : opt.length ≤ 8 := by
        have := hpre.length_le
        simpa [lit] using this
      have htake := List.prefix_iff_eq_take.mp hpre
      rcases Nat.lt_or_ge opt.length 8 with hlt | hge
      · have h7' : opt.length = 7 := by omega
        rw [h7'] at htake
        exact h1 htake
      · have h8' : opt.length = 8 := by omega
        rw [h8'] at htake
        exact h2 htake
  have htrim : strings.TrimPrefix (lit "default=") opt = lit "default=" := by
    simp [strings.TrimPrefix, hno]
  rw [parseTagData.options]
  simp only [h, if_true, htrim]
  rw [if_neg (fun e => h2 e.symm)]

/-- The loop over the options never fails, and keeps the name. -/
theorem options_ok (tg : tag) (opts : List GoString) :
    ∃ tg', parseTagData.options tg opts = .ok tg' ∧ tg'.key = tg.key := by
  induction opts generalizing tg with
  | nil => exact ⟨tg, rfl, rfl⟩
  | cons opt opts ih =>
    unfold parseTagData.options
    split
    · rename_i hpre
      simp only [if_neg (TrimPrefix_default_ne opt hpre)]
      exact ih _
    · exact ih _

/-- What `parseTagData` answers, by the validity of the name. -/
theorem parseTagData_cases (data : GoString) :
    (isValidTagName ((strings.Split data 44).headD []) = true
        ∧ ∃ tg, parseTagData data = .ok tg ∧ tg.key = (strings.Split data 44).headD [])
      ∨ (isValidTagName ((strings.Split data 44).headD []) = false
        ∧ parseTagData data = .error (.invalidKey ((strings.Split data 44).headD []))) := by
  cases hv : isValidTagName ((strings.Split data 44).headD []) with
  | true =>
    left
    simp only [parseTagData, hv, Bool.not_true, Bool.false_eq_true, if_false, true_and]
    exact options_ok _ _
  | false =>
    right
    simp only [parseTagData, hv, Bool.not_false, if_true, and_self]

/-- The shape of a valid name, byte by byte. -/
theorem isValidTagName_shape (s : GoString) :
    isValidTagName s = true ↔
      s ≠ [] ∧ (∀ b ∈ s, isNameByte b = true) ∧ s.head?.any isUpper = true
        ∧ s.getLast?.any isAlnum = true := by
  have hU : ∀ b, b ∈ upperAZ ↔ isUpper b = true := by
    intro b
    simp only [upperAZ, isUpper, List.mem_range'_1, Bool.and_eq_true, decide_eq_true_eq]
    omega
  have hA : ∀ b, b ∈ upperAZ ++ digit09 ↔ isAlnum b = true := by
    intro b
    simp only [List.mem_append, upperAZ, isAlnum, isUpper, digit09, List.mem_range'_1,
      Bool.or_eq_true, Bool.and_eq_true, decide_eq_true_eq]
    omega
  have hN : ∀ b, b ∈ upperAZ ++ digit09 ++ [95] ↔ isNameByte b = true := by
    intro b
    rw [List.mem_append, hA, isNameByte, List.mem_singleton, Bool.or_eq_true, decide_eq_true_eq]
  have hAN : ∀ b, isAlnum b = true → isNameByte b = true := by
    intro b hb
    simp [isNameByte, hb]
  have hUA : ∀ b, isUpper b = true → isAlnum b = true := by
    intro b hb
    simp [isAlnum, hb]
  rw [isValidTagName_iff]
  constructor
  · rintro ⟨b, rest, rfl, hb, hrest⟩
    have hb' := (hU b).mp hb
    rcases hrest with rfl | ⟨mid, last, rfl, hmid, hlast⟩
    · refine ⟨by simp, ?_, by simpa using hb', by simpa using hUA b hb'⟩
      intro x hx
      rw [List.mem_singleton] at hx
      rw [hx]
      exact hAN b (hUA b hb')
    · have hlast' := (hA last).mp hlast
      refine ⟨by simp, ?_, by simpa using hb', ?_⟩
      · intro x hx
        rcases List.mem_cons.mp hx with rfl | hx
        · exact hAN _ (hUA _ hb')
        · rcases List.mem_append.mp hx with hx | hx
          · exact (hN x).mp (hmid x hx)
          · rw [List.mem_singleton] at hx
            rw [hx]
            exact hAN _ hlast'
      · rw [← List.cons_append, List.getLast?_append]
        simpa using hlast'
  · rintro ⟨hne, hall, hhead, hlast⟩
    cases s with
    | nil => exact absurd rfl hne
    | cons b rest =>
      refine ⟨b, rest, rfl, (hU b).mpr (by simpa using hhead), ?_⟩
      rcases List.eq_nil_or_concat rest with rfl | ⟨mid, last, hcat⟩
      · exact Or.inl rfl
      rw [List.concat_eq_append] at hcat
      subst hcat
      · right
        refine ⟨mid, last, rfl, ?_, ?_⟩
        · intro m hm
          exact (hN m).mpr (hall m (List.mem_cons_of_mem _ (List.mem_append_left _ hm)))
        · rw [← List.cons_append, List.getLast?_append] at hlast
          exact (hA last).mpr (by simpa using hlast)

/-- C8 as stated fails: `2FA_TOKEN` is not empty, all its characters are
uppercase letters, digits or underscores, and its first and its last character
are alphanumeric, yet `parseTagData` rejects it as a name, alone and with an
option, with the invalid-key error. -/
theorem parseTagData_rejects_leading_digit :
    (lit "2FA_TOKEN" ≠ [] ∧ (∀ b ∈ lit "2FA_TOKEN", isNameByte b = true)
        ∧ (lit "2FA_TOKEN").head?.any isAlnum = true
        ∧ (lit "2FA_TOKEN").getLast?.any isAlnum = true)
      ∧ parseTagData (lit "2FA_TOKEN") = .error (.invalidKey (lit "2FA_TOKEN"))
      ∧ parseTagData (lit "2FA_TOKEN,required") = .error (.invalidKey (lit "2FA_TOKEN")) := by
  decide

/-- C8, amended: `parseTagData` accepts a tag named `s` exactly when `s` is not
empty, every character of `s` is an uppercase letter, a digit or an
underscore, the first character is an uppercase letter and the last one is an
uppercase letter or a digit; for every other `s` it fails with the invalid-key
error on `s`. -/
theorem parseTagData_accepts_iff (s : GoString) (opts : List GoString) (hs : 44 ∉ s) :
    ((∃ tg, parseTagData (tagData s opts) = .ok tg) ↔
        (s ≠ [] ∧ (∀ b ∈ s, isNameByte b = true) ∧ s.head?.any isUpper = true
          ∧ s.getLast?.any isAlnum = true))
      ∧ (¬ (s ≠ [] ∧ (∀ b ∈ s, isNameByte b = true) ∧ s.head?.any isUpper = true
            ∧ s.getLast?.any isAlnum = true) →
          parseTagData (tagData s opts) = .error (.invalidKey s)) := by
  have hkey := Split_tagData_head s opts hs
  rw [← isValidTagName_shape]
  rcases parseTagData_cases (tagData s opts) with ⟨hv, tg, htg, _⟩ | ⟨hv, herr⟩
  · rw [hkey] at hv
    exact ⟨⟨fun _ => hv, fun _ => ⟨tg, htg⟩⟩, fun hno => absurd hv hno⟩
  · rw [hkey] at hv herr
    refine ⟨⟨?_, ?_⟩, fun _ => herr⟩
    · rintro ⟨tg, htg⟩
      rw [herr] at htg
      cases htg
    · intro h
      rw [hv] at h
      cases h

/-- The witness of the amended C8: the name `FILE_ID` with the option
`required`. -/
theorem parseTagData_accepts_iff_witness :
    ((∃ tg, parseTagData (tagData (lit "FILE_ID") [lit "required"]) = .ok tg) ↔
        (lit "FILE_ID" ≠ [] ∧ (∀ b ∈ lit "FILE_ID", isNameByte b = true)
          ∧ (lit "FILE_ID").head?.any isUpper = true
          ∧ (lit "FILE_ID").getLast?.any isAlnum = true))
      ∧ (¬ (lit "FILE_ID" ≠ [] ∧ (∀ b ∈ lit "FILE_ID", isNameByte b = true)
            ∧ (lit "FILE_ID").head?.any isUpper = true
            ∧ (lit "FILE_ID").getLast?.any isAlnum = true) →
          parseTagData (tagData (lit "FILE_ID") [lit "required"])
            = .error (.invalidKey (lit "FILE_ID"))) :=
  parseTagData_accepts_iff (lit "FILE_ID") [lit "required"] (by decide)

/-- C7 on the tag `PORT,default=8080`: `parseTagData` stores `default=` as the
default, not `8080`, and `tag.get` returns `default=` both when `PORT` is not
set and when it is set to the empty string. The default is the same whatever
follows `default`, and the syntax error of the loop is never returned. -/
theorem default_option_is_lost :
    parseTagData (lit "PORT,default=8080")
        = .ok { key := lit "PORT", dfault := lit "default=", required := false, base64 := false }
      ∧ (parseTagData (lit "PORT,default=8080")).bind (fun tg => tg.get [])
        = .ok (lit "default=")
      ∧ (parseTagData (lit "PORT,default=8080")).bind (fun tg => tg.get [(lit "PORT", [])])
        = .ok (lit "default=")
      ∧ lit "default=" ≠ lit "8080"
      ∧ parseTagData (lit "PORT,defaults")
        = .ok { key := lit "PORT", dfault := lit "default=", required := false, base64 := false }
      ∧ parseTagData (lit "PORT,default")
        = .ok { key := lit "PORT", dfault := lit "=", required := false, base64 := false } := by
  decide

/-- The loop over the options sets `required` once the option `required` is
among them. -/
theorem options_required (tg : tag) (opts : List GoString)
    (h : tg.required = true ∨ lit "required" ∈ opts) :
    ∃ tg', parseTagData.options tg opts = .ok tg' ∧ tg'.key = tg.key ∧ tg'.required = true := by
  induction opts generalizing tg with
  | nil =>
    rcases h with h | h
    · exact ⟨tg, rfl, rfl, h⟩
    · cases h
  | cons opt opts ih =>
    unfold parseTagData.options
    split
    · rename_i hpre
      simp only [if_neg (TrimPrefix_default_ne opt hpre)]
      refine ih _ ?_
      rcases h with h | h
      · exact Or.inl h
      · rcases List.mem_cons.mp h with h | h
        · rw [← h] at hpre
          exact absurd hpre (by decide)
        · exact Or.inr h
    · refine ih _ ?_
      rcases h with h | h
      · left
        simp [h]
      · rcases List.mem_cons.mp h with h | h
        · left
          simp [h]
        · exact Or.inr h

/-- A tag with a valid name and the option `required` parses to a tag of that
name with `required` set. -/
theorem parseTagData_required (data : GoString)
    (hname : isValidTagName ((strings.Split data 44).headD []) = true)
    (hreq : lit "required" ∈ (strings.Split data 44).tail) :
    ∃ tg, parseTagData data = .ok tg ∧ tg.key = (strings.Split data 44).headD []
      ∧ tg.required = true := by
  simp only [parseTagData, hname, Bool.not_true, Bool.false_eq_true, if_false]
  exact options_required _ _ (Or.inr hreq)

/-- A required variable that is not set makes `get` fail, naming it. -/
theorem get_not_set (tg : tag) (env : Env) (hreq : tg.required = true)
    (habs : os.LookupEnv env tg.key = none) : tg.get env = .error (.notSet tg.key) := by
  simp [tag.get, hreq, habs]

/-- The loop of `load` fails once one of the fields has a tag that `get` fails
on. -/
theorem fields_fail (env : Env) (f : StructField) (data : GoString) (tg : tag) (e : Error)
    (henv : f.env = some data) (hparse : parseTagData data = .ok tg)
    (hget : tg.get env = .error e) (fields : List StructField) (hf : f ∈ fields)
    (acc : List Entry) : ∃ err, load.fields env fields acc = .error err := by
  induction fields generalizing acc with
  | nil => cases hf
  | cons g gs ih =>
    by_cases hg : g = f
    · subst hg
      exact ⟨.getTag g.Name e, by simp [load.fields, henv, hparse, hget]⟩
    · have hmem : f ∈ gs := by
        rcases List.mem_cons.mp hf with h | h
        · exact absurd h.symm hg
        · exact h
      unfold load.fields
      split
      · exact ih hmem _
      · split
        · exact ⟨_, rfl⟩
        · split
          · exact ⟨_, rfl⟩
          · split
            · exact ih hmem _
            · exact ih hmem _

/-- The tag of the field `FileID` of `config`. -/
theorem parse_FILE_ID : parseTagData (lit "FILE_ID,required")
    = .ok { key := lit "FILE_ID", dfault := [], required := true, base64 := false } := by
  decide

/-- The tag of the field `Username` of `config`. -/
theorem parse_AUTH_USER : parseTagData (lit "AUTH_USER,required")
    = .ok { key := lit "AUTH_USER", dfault := [], required := true, base64 := false } := by
  decide

/-- The tag of the field `Password` of `config`. -/
theorem parse_AUTH_PASSWORD : parseTagData (lit "AUTH_PASSWORD,required,base64")
    = .ok { key := lit "AUTH_PASSWORD", dfault := [], required := true, base64 := true } := by
  decide

/-- What `get` returns for a required tag without a default and without
`base64`. -/
theorem get_required_plain (key : GoString) (env : Env) :
    tag.get { key := key, dfault := [], required := true, base64 := false } env
      = match os.LookupEnv env key with
        | none => .error (.notSet key)
        | some v => .ok v := by
  rcases h : os.LookupEnv env key with _ | v
  · simp [tag.get, h]
  · by_cases hv : v = [] <;> simp [tag.get, h, hv]

/-- What `get` returns for a required tag without a default and with
`base64`. -/
theorem get_required_base64 (key : GoString) (env : Env) :
    tag.get { key := key, dfault := [], required := true, base64 := true } env
      = match os.LookupEnv env key with
        | none => .error (.notSet key)
        | some v =>
          match base64.DecodeString v with
          | .error err => .error (.decodeString err)
          | .ok b => .ok b := by
  rcases h : os.LookupEnv env key with _ | v
  · simp [tag.get, h]
  · by_cases hv : v = []
    · subst hv
      simp [tag.get, h, base64.DecodeString, base64.decodeQuanta]
    · simp [tag.get, h, hv]

/-- What `json.Unmarshal` stores when it succeeds: every member, in order. -/
theorem unmarshalConfig_ok (isPrint : Nat → Bool) (es : List Entry) (cfg r : Config)
    (h : unmarshalConfig isPrint es cfg = .ok r) :
    r = es.foldl (fun c e => c.set e.key e.value) cfg := by
  induction es generalizing cfg with
  | nil =>
    cases h
    rfl
  | cons e es ih =>
    unfold unmarshalConfig at h
    split at h
    · exact ih _ h
    · cases h

/-- The call `env.Load(config)`, variable by variable. -/
theorem LoadConfig_eq (isPrint : Nat → Bool) (env : Env) :
    LoadConfig isPrint env
      = match os.LookupEnv env (lit "FILE_ID") with
        | none => .error (.loadFailed (.getTag (lit "FileID") (.notSet (lit "FILE_ID"))))
        | some v1 =>
          match os.LookupEnv env (lit "AUTH_USER") with
          | none => .error (.loadFailed (.getTag (lit "Username") (.notSet (lit "AUTH_USER"))))
          | some v2 =>
            match os.LookupEnv env (lit "AUTH_PASSWORD") with
            | none =>
              .error (.loadFailed (.getTag (lit "Password") (.notSet (lit "AUTH_PASSWORD"))))
            | some v3 =>
              match base64.DecodeString v3 with
              | .error err => .error (.loadFailed (.getTag (lit "Password") (.decodeString err)))
              | .ok p =>
                match unmarshalConfig isPrint
                  ((if v1 = [] then [] else [{ key := lit "FileID", value := v1, quoted := true }])
                    ++ (if v2 = [] then [] else
                      [{ key := lit "Username", value := v2, quoted := true }])
                    ++ (if p = [] then [] else
                      [{ key := lit "Password", value := p, quoted := true }])) config with
                | .error err => .error (.loadFailed err)
                | .ok r => .ok r := by
  simp only [LoadConfig, Load, load, configType, load.fields, parse_FILE_ID, parse_AUTH_USER,
    parse_AUTH_PASSWORD, get_required_plain, get_required_base64]
  rcases os.LookupEnv env (lit "FILE_ID") with _ | v1
  · rfl
  rcases os.LookupEnv env (lit "AUTH_USER") with _ | v2
  · by_cases h1 : v1 = [] <;> simp [h1]
  rcases os.LookupEnv env (lit "AUTH_PASSWORD") with _ | v3
  · by_cases h1 : v1 = [] <;> by_cases h2 : v2 = [] <;> simp [h1, h2]
  rcases hd : base64.DecodeString v3 with err | p
  · by_cases h1 : v1 = [] <;> by_cases h2 : v2 = [] <;> simp [h1, h2, hd]
  · by_cases h1 : v1 = [] <;> by_cases h2 : v2 = [] <;> by_cases h3 : p = [] <;>
      simp [h1, h2, h3, hd] <;> split <;> simp_all

/-- C6 as stated fails: with `FILE_ID` set to the empty string, loading the
configuration succeeds and the record's fileID is empty; with all three
variables set to the empty string it succeeds and all three fields are
empty. -/
theorem LoadConfig_empty_fields :
    LoadConfig (fun _ => true)
        [(lit "FILE_ID", []), (lit "AUTH_USER", lit "admin"), (lit "AUTH_PASSWORD", lit "c2VjcmV0")]
        = .ok { FileID := [], Username := lit "admin", Password := lit "secret" }
      ∧ LoadConfig (fun _ => true)
        [(lit "FILE_ID", []), (lit "AUTH_USER", []), (lit "AUTH_PASSWORD", [])]
        = .ok { FileID := [], Username := [], Password := [] } := by
  decide

/-- C6, amended: loading the configuration either fails or yields a record
whose fileID is the value of `FILE_ID`, whose username is the value of
`AUTH_USER` and whose password is the base64 decoding of the value of
`AUTH_PASSWORD`, all three variables being set; so each field is non-empty
unless its variable is set to the empty string or, for the password, to a
text that decodes to no bytes. -/
theorem LoadConfig_fields (isPrint : Nat → Bool) (env : Env) (r : Config)
    (h : LoadConfig isPrint env = .ok r) :
    (os.LookupEnv env (lit "FILE_ID") = some r.FileID
        ∧ os.LookupEnv env (lit "AUTH_USER") = some r.Username
        ∧ ∃ v, os.LookupEnv env (lit "AUTH_PASSWORD") = some v
            ∧ base64.DecodeString v = .ok r.Password)
      ∧ (os.LookupEnv env (lit "FILE_ID") ≠ some [] → r.FileID ≠ [])
      ∧ (os.LookupEnv env (lit "AUTH_USER") ≠ some [] → r.Username ≠ [])
      ∧ ((∀ v, os.LookupEnv env (lit "AUTH_PASSWORD") = some v →
            base64.DecodeString v ≠ .ok []) → r.Password ≠ []) := by
  have main : os.LookupEnv env (lit "FILE_ID") = some r.FileID
      ∧ os.LookupEnv env (lit "AUTH_USER") = some r.Username
      ∧ ∃ v, os.LookupEnv env (lit "AUTH_PASSWORD") = some v
          ∧ base64.DecodeString v = .ok r.Password := by
    rw [LoadConfig_eq] at h
    have k1 : lit "Username" ≠ lit "FileID" := by decide
    have k2 : lit "Password" ≠ lit "FileID" := by decide
    have k3 : lit "Password" ≠ lit "Username" := by decide
    split at h
    · cases h
    rename_i v1 hv1
    split at h
    · cases h
    rename_i v2 hv2
    split at h
    · cases h
    rename_i v3 hv3
    split at h
    · cases h
    rename_i p hp
    split at h
    · cases h
    rename_i r' hu
    cases h
    have hr := unmarshalConfig_ok isPrint _ _ _ hu
    rw [hv1, hv2, hv3]
    by_cases h1 : v1 = [] <;> by_cases h2 : v2 = [] <;> by_cases h3 : p = [] <;>
      simp [h1, h2, h3, Config.set, config, k1, k2, k3] at hr <;>
      subst hr <;> simp_all
  refine ⟨main, ?_, ?_, ?_⟩
  · intro hne hempty
    rw [main.1, hempty] at hne
    exact hne rfl
  · intro hne hempty
    rw [main.2.1, hempty] at hne
    exact hne rfl
  · intro hne hempty
    obtain ⟨v, hv, hdec⟩ := main.2.2
    rw [hempty] at hdec
    exact hne v hv hdec

/-- The witness of the amended C6: `FILE_ID=abc123`, `AUTH_USER=admin` and
`AUTH_PASSWORD` the base64 text of `secret`. -/
theorem LoadConfig_fields_witness :
    (os.LookupEnv [(lit "FILE_ID", lit "abc123"), (lit "AUTH_USER", lit "admin"),
          (lit "AUTH_PASSWORD", lit "c2VjcmV0")] (lit "FILE_ID") = some (lit "abc123")
        ∧ os.LookupEnv [(lit "FILE_ID", lit "abc123"), (lit "AUTH_USER", lit "admin"),
          (lit "AUTH_PASSWORD", lit "c2VjcmV0")] (lit "AUTH_USER") = some (lit "admin")
        ∧ ∃ v, os.LookupEnv [(lit "FILE_ID", lit "abc123"), (lit "AUTH_USER", lit "admin"),
              (lit "AUTH_PASSWORD", lit "c2VjcmV0")] (lit "AUTH_PASSWORD") = some v
            ∧ base64.DecodeString v = .ok (lit "secret"))
      ∧ (os.LookupEnv [(lit "FILE_ID", lit "abc123"), (lit "AUTH_USER", lit "admin"),
          (lit "AUTH_PASSWORD", lit "c2VjcmV0")] (lit "FILE_ID") ≠ some [] → lit "abc123" ≠ [])
      ∧ (os.LookupEnv [(lit "FILE_ID", lit "abc123"), (lit "AUTH_USER", lit "admin"),
          (lit "AUTH_PASSWORD", lit "c2VjcmV0")] (lit "AUTH_USER") ≠ some [] → lit "admin" ≠ [])
      ∧ ((∀ v, os.LookupEnv [(lit "FILE_ID", lit "abc123"), (lit "AUTH_USER", lit "admin"),
            (lit "AUTH_PASSWORD", lit "c2VjcmV0")] (lit "AUTH_PASSWORD") = some v →
            base64.DecodeString v ≠ .ok []) → lit "secret" ≠ []) :=
  LoadConfig_fields (fun _ => true)
    [(lit "FILE_ID", lit "abc123"), (lit "AUTH_USER", lit "admin"),
      (lit "AUTH_PASSWORD", lit "c2VjcmV0")]
    { FileID := lit "abc123", Username := lit "admin", Password := lit "secret" } (by decide)

/-- C9 as stated fails in its last part: in the empty environment
`AUTH_PASSWORD` is absent, and loading the configuration fails with an error
that names the field `FileID` and the variable `FILE_ID`, the first one that
is missing, not `AUTH_PASSWORD`. -/
theorem LoadConfig_names_first_missing :
    os.LookupEnv [] (lit "AUTH_PASSWORD") = none
      ∧ LoadConfig (fun _ => true) []
        = .error (.loadFailed (.getTag (lit "FileID") (.notSet (lit "FILE_ID"))))
      ∧ Error.loadFailed (.getTag (lit "FileID") (.notSet (lit "FILE_ID")))
        ≠ .loadFailed (.getTag (lit "Password") (.notSet (lit "AUTH_PASSWORD"))) := by
  decide

/-- C9, amended: for a tag with a valid name and the option `required`, in an
environment where the name is not set, `get` fails with the error that names
the variable, and `Load` of every record with a field of that tag fails. In
particular loading the configuration with `AUTH_PASSWORD` absent fails, and
the error names `AUTH_PASSWORD` when `FILE_ID` and `AUTH_USER` are set;
otherwise it names the first of the two that is missing, `FILE_ID` before
`AUTH_USER`. -/
theorem required_missing_fails (data : GoString) (env : Env)
    (hname : isValidTagName ((strings.Split data 44).headD []) = true)
    (hreq : lit "required" ∈ (strings.Split data 44).tail)
    (habs : os.LookupEnv env ((strings.Split data 44).headD []) = none) :
    (∃ tg, parseTagData data = .ok tg
        ∧ tg.get env = .error (.notSet ((strings.Split data 44).headD [])))
      ∧ (∀ (ρ : Type) (unmarshal : List Entry → ρ → Except Error ρ) (cfg : ρ)
          (fields : List StructField) (f : StructField), f ∈ fields → f.env = some data →
          ∃ err, Load (.ptrToStruct fields) unmarshal cfg env = .error (.loadFailed err))
      ∧ (∀ (isPrint : Nat → Bool) (env' : Env),
          os.LookupEnv env' (lit "AUTH_PASSWORD") = none →
          (∃ err, LoadConfig isPrint env' = .error (.loadFailed err))
            ∧ (os.LookupEnv env' (lit "FILE_ID") ≠ none →
                os.LookupEnv env' (lit "AUTH_USER") ≠ none →
                LoadConfig isPrint env'
                  = .error (.loadFailed
                      (.getTag (lit "Password") (.notSet (lit "AUTH_PASSWORD")))))
            ∧ (os.LookupEnv env' (lit "FILE_ID") = none →
                LoadConfig isPrint env'
                  = .error (.loadFailed (.getTag (lit "FileID") (.notSet (lit "FILE_ID")))))
            ∧ (os.LookupEnv env' (lit "FILE_ID") ≠ none →
                os.LookupEnv env' (lit "AUTH_USER") = none →
                LoadConfig isPrint env'
                  = .error (.loadFailed
                      (.getTag (lit "Username") (.notSet (lit "AUTH_USER")))))) := by
  obtain ⟨tg, hparse, hkey, hrequired⟩ := parseTagData_required data hname hreq
  have hget : tg.get env = .error (.notSet ((strings.Split data 44).headD [])) := by
    rw [← hkey]
    exact get_not_set tg env hrequired (by rw [hkey]; exact habs)
  refine ⟨⟨tg, hparse, hget⟩, ?_, ?_⟩
  · intro ρ unmarshal cfg fields f hf henv
    obtain ⟨err, herr⟩ := fields_fail env f data tg _ henv hparse hget fields hf []
    exact ⟨err, by simp [Load, load, herr]⟩
  · intro isPrint env' hpw
    rw [LoadConfig_eq, hpw]
    refine ⟨?_, ?_, ?_, ?_⟩
    · rcases os.LookupEnv env' (lit "FILE_ID") with _ | v1
      · exact ⟨_, rfl⟩
      · rcases os.LookupEnv env' (lit "AUTH_USER") with _ | v2
        · exact ⟨_, rfl⟩
        · exact ⟨_, rfl⟩
    · intro h1 h2
      rcases hl1 : os.LookupEnv env' (lit "FILE_ID") with _ | v1
      · exact absurd hl1 h1
      · rcases hl2 : os.LookupEnv env' (lit "AUTH_USER") with _ | v2
        · exact absurd hl2 h2
        · rfl
    · intro h1
      rw [h1]
    · intro h1 h2
      rcases hl1 : os.LookupEnv env' (lit "FILE_ID") with _ | v1
      · exact absurd hl1 h1
      · rw [h2]

/-- The witness of the amended C9: the tag `AUTH_PASSWORD,required,base64` in
an environment that sets only `FILE_ID` and `AUTH_USER`. -/
theorem required_missing_fails_witness :
    (∃ tg, parseTagData (lit "AUTH_PASSWORD,required,base64") = .ok tg
        ∧ tg.get [(lit "FILE_ID", lit "abc123"), (lit "AUTH_USER", lit "admin")]
          = .error (.notSet
              ((strings.Split (lit "AUTH_PASSWORD,required,base64") 44).headD [])))
      ∧ (∀ (ρ : Type) (unmarshal : List Entry → ρ → Except Error ρ) (cfg : ρ)
          (fields : List StructField) (f : StructField), f ∈ fields →
          f.env = some (lit "AUTH_PASSWORD,required,base64") →
          ∃ err, Load (.ptrToStruct fields) unmarshal cfg
            [(lit "FILE_ID", lit "abc123"), (lit "AUTH_USER", lit "admin")]
            = .error (.loadFailed err))
      ∧ (∀ (isPrint : Nat → Bool) (env' : Env),
          os.LookupEnv env' (lit "AUTH_PASSWORD") = none →
          (∃ err, LoadConfig isPrint env' = .error (.loadFailed err))
            ∧ (os.LookupEnv env' (lit "FILE_ID") ≠ none →
                os.LookupEnv env' (lit "AUTH_USER") ≠ none →
                LoadConfig isPrint env'
                  = .error (.loadFailed
                      (.getTag (lit "Password") (.notSet (lit "AUTH_PASSWORD")))))
            ∧ (os.LookupEnv env' (lit "FILE_ID") = none →
                LoadConfig isPrint env'
                  = .error (.loadFailed (.getTag (lit "FileID") (.notSet (lit "FILE_ID")))))
            ∧ (os.LookupEnv env' (lit "FILE_ID") ≠ none →
                os.LookupEnv env' (lit "AUTH_USER") = none →
                LoadConfig isPrint env'
                  = .error (.loadFailed
                      (.getTag (lit "Username") (.notSet (lit "AUTH_USER")))))) :=
  required_missing_fails (lit "AUTH_PASSWORD,required,base64")
    [(lit "FILE_ID", lit "abc123"), (lit "AUTH_USER", lit "admin")]
    (by decide) (by decide) (by decide)

end Me
